import Mathlib

/-!
Shallow embedding of the sales/stock analysis pipeline:
product-to-company classification, per-row metric derivation,
company-level aggregation, and stock metric derivation.

Numeric values are modelled as rationals.  The source computes with
floats whose division by zero yields a non-finite value (inf or NaN)
instead of raising; a non-finite result is modelled as `none` of
`Option ℚ`.  The `.round(2)` aggregation step is modelled by
`round2` (round half to even, as numpy does away from representation
noise).
-/

namespace STAnalysis

/-- Round a rational to the nearest integer, ties to even (the rounding
used by numpy/pandas `round`). -/
def roundHalfEven (q : ℚ) : ℤ :=
  if q - ⌊q⌋ < 1/2 then ⌊q⌋
  else if 1/2 < q - ⌊q⌋ then ⌊q⌋ + 1
  else if ⌊q⌋ % 2 = 0 then ⌊q⌋ else ⌊q⌋ + 1

/-- Round to two decimal places, as `.round(2)` does on the aggregated
columns. -/
def round2 (q : ℚ) : ℚ := (roundHalfEven (q * 100) : ℚ) / 100

/-- Float division as pandas performs it elementwise: division by zero
does not raise; it produces a non-finite value (`inf`, `-inf` or `NaN`),
modelled as `none`. -/
def pandasDiv (a b : ℚ) : Option ℚ := if b = 0 then none else some (a / b)

/-! ## Reference catalog and reverse index

`load_company_products_from_csv` strips whitespace from every catalog
product name and drops empty names; `PRODUCT_TO_COMPANY` is then built
by flattening, later entries overwriting earlier ones (dict update). -/

/-- A reference catalog: company name paired with its raw product-name
list, as read from the external source. -/
abbrev Catalog := List (String × List String)

/-- Python `str.strip()` as `.str.strip()` applies it: remove leading
and trailing whitespace characters. -/
def strip (s : String) : String :=
  ⟨((s.data.dropWhile Char.isWhitespace).reverse.dropWhile Char.isWhitespace).reverse⟩

/-- The loader trims each catalog product name and removes names that
are empty after trimming (`dropna().str.strip()` plus the
`[p for p in products if p]` filter). -/
def loadCatalog (raw : Catalog) : Catalog :=
  raw.map (fun e => (e.1, (e.2.map strip).filter (fun p => p ≠ "")))

/-- Register one company's product list in the reverse index; a later
insertion of the same product name overwrites the earlier one, as the
dict assignment `PRODUCT_TO_COMPANY[product] = company` does. -/
def insertProducts (m : String → Option String) (company : String)
    (ps : List String) : String → Option String :=
  ps.foldl (fun acc p => fun s => if s = p then some company else acc s) m

/-- Build the reverse index `PRODUCT_TO_COMPANY` from a (loaded)
catalog by flattening. -/
def buildIndex (catalog : Catalog) : String → Option String :=
  catalog.foldl (fun acc e => insertProducts acc e.1 e.2) (fun _ => none)

/-- The module-level reverse index derived from the raw catalog. -/
def productToCompany (raw : Catalog) : String → Option String :=
  buildIndex (loadCatalog raw)

/-- `df['ITNAME'].map(PRODUCT_TO_COMPANY).fillna('Other')` for a single
row: the row's product name is looked up as-is. -/
def classify (idx : String → Option String) (itname : String) : String :=
  (idx itname).getD "Other"

/-- Modelled from the spec wording of claim C1 (for refinement
comparison only): whitespace trimmed from the transactional value as
well before the lookup.  The source does not trim the row value. -/
def specClassify (raw : Catalog) (itname : String) : String :=
  (productToCompany raw (strip itname)).getD "Other"

/-! ## Sales rows and per-row derived metrics -/

/-- A transactional sales row (after column renaming). -/
structure SalesRow where
  itname : String
  qty : ℚ
  taxbleamt : ℚ
  gst : ℚ
deriving DecidableEq

/-- A sales row with the COMPANY column added. -/
structure CatRow where
  itname : String
  qty : ℚ
  taxbleamt : ℚ
  gst : ℚ
  company : String
deriving DecidableEq

/-- `categorize_by_company`: adds the COMPANY column via the reverse
index, defaulting to the sentinel "Other". -/
def categorize_by_company (idx : String → Option String)
    (batch : List SalesRow) : List CatRow :=
  batch.map (fun r =>
    { itname := r.itname, qty := r.qty, taxbleamt := r.taxbleamt,
      gst := r.gst, company := (idx r.itname).getD "Other" })

/-- Minimum of a column (`Series.min`); only used on nonempty batches. -/
def listMin : List ℚ → ℚ
  | [] => 0
  | x :: xs => xs.foldl min x

/-- Maximum of a column (`Series.max`); only used on nonempty batches. -/
def listMax : List ℚ → ℚ
  | [] => 0
  | x :: xs => xs.foldl max x

/-- Number of column values strictly below `v`. -/
def countLt (vals : List ℚ) (v : ℚ) : ℕ :=
  (vals.filter (fun x => x < v)).length

/-- Number of column values equal to `v`. -/
def countEq (vals : List ℚ) (v : ℚ) : ℕ :=
  (vals.filter (fun x => x = v)).length

/-- Number of column values at most `v`. -/
def countLe (vals : List ℚ) (v : ℚ) : ℕ :=
  (vals.filter (fun x => x ≤ v)).length

/-- The average rank assigned by `Series.rank` (default method
"average"): the mean of the 1-based positions the tied group would
occupy. -/
def avgRank (vals : List ℚ) (v : ℚ) : ℚ :=
  (countLt vals v : ℚ) + ((countEq vals v : ℚ) + 1) / 2

/-- `Series.rank(pct=True)`: the average rank divided by the number of
rows. -/
def pctRank (vals : List ℚ) (v : ℚ) : ℚ :=
  avgRank vals v / (vals.length : ℚ)

/-- `rank(pct=True) * 100`, the percentile columns. -/
def percentile (vals : List ℚ) (v : ℚ) : ℚ :=
  pctRank vals v * 100

/-- Min-max normalization `(x - min) / (max - min)` over a column;
a zero range gives `0/0`, i.e. NaN, modelled as `none`. -/
def minMaxNorm (vals : List ℚ) (v : ℚ) : Option ℚ :=
  pandasDiv (v - listMin vals) (listMax vals - listMin vals)

/-- A row after `calculate_advanced_metrics`. -/
structure DerivedRow where
  itname : String
  qty : ℚ
  taxbleamt : ℚ
  gst : ℚ
  company : String
  pricePerUnit : Option ℚ
  gstAmount : ℚ
  totalWithGst : ℚ
  revenuePercentile : ℚ
  qtyPercentile : ℚ
  performanceScore : Option ℚ
deriving DecidableEq

/-- `calculate_advanced_metrics`: unit price, tax amount, total with
tax, percentile ranks and the 60/40 performance score.  A NaN produced
by a zero-range normalization or a zero quantity propagates (modelled
as `none`). -/
def calculate_advanced_metrics (batch : List CatRow) : List DerivedRow :=
  let revs := batch.map (fun r => r.taxbleamt)
  let qtys := batch.map (fun r => r.qty)
  batch.map (fun r =>
    { itname := r.itname, qty := r.qty, taxbleamt := r.taxbleamt,
      gst := r.gst, company := r.company,
      pricePerUnit := pandasDiv r.taxbleamt r.qty,
      gstAmount := r.taxbleamt * r.gst / 100,
      totalWithGst := r.taxbleamt + r.taxbleamt * r.gst / 100,
      revenuePercentile := percentile revs r.taxbleamt,
      qtyPercentile := percentile qtys r.qty,
      performanceScore :=
        match minMaxNorm revs r.taxbleamt, minMaxNorm qtys r.qty with
        | some rn, some qn => some ((rn * (6/10) + qn * (4/10)) * 100)
        | _, _ => none })

/-- The two classification and derivation stages composed. -/
def pipeline (idx : String → Option String) (batch : List SalesRow) :
    List DerivedRow :=
  calculate_advanced_metrics (categorize_by_company idx batch)

/-! ## Company aggregation -/

/-- Mean of a column that may contain NaN entries: pandas `mean` skips
NaN values (modelled as skipping `none`). -/
def optMean (xs : List (Option ℚ)) : Option ℚ :=
  pandasDiv xs.reduceOption.sum (xs.reduceOption.length : ℚ)

/-- One row of the Company Summary. -/
structure CompanyEntry where
  company : String
  productCount : ℕ
  totalQuantity : ℚ
  avgQuantity : Option ℚ
  totalRevenue : ℚ
  avgRevenue : Option ℚ
  totalGst : ℚ
  totalWithGst : ℚ
  avgPricePerUnit : Option ℚ
  marketShare : Option ℚ
deriving DecidableEq

/-- The exact (unrounded) revenue of one company group. -/
def groupRevenue (rows : List DerivedRow) (c : String) : ℚ :=
  ((rows.filter (fun r => r.company = c)).map (fun r => r.taxbleamt)).sum

/-- The aggregation of one company group
(`groupby('COMPANY').agg(...).round(2)`). -/
def companyAgg (rows : List DerivedRow) (c : String) : CompanyEntry :=
  let g := rows.filter (fun r => r.company = c)
  { company := c,
    productCount := g.length,
    totalQuantity := round2 ((g.map (fun r => r.qty)).sum),
    avgQuantity := (pandasDiv ((g.map (fun r => r.qty)).sum) (g.length : ℚ)).map round2,
    totalRevenue := round2 ((g.map (fun r => r.taxbleamt)).sum),
    avgRevenue := (pandasDiv ((g.map (fun r => r.taxbleamt)).sum) (g.length : ℚ)).map round2,
    totalGst := round2 ((g.map (fun r => r.gstAmount)).sum),
    totalWithGst := round2 ((g.map (fun r => r.totalWithGst)).sum),
    avgPricePerUnit := (optMean (g.map (fun r => r.pricePerUnit))).map round2,
    marketShare := none }

/-- The distinct company values, in the ascending key order pandas
`groupby` uses. -/
def summaryCompanies (rows : List DerivedRow) : List String :=
  List.insertionSort (fun a b => a ≤ b) (rows.map (fun r => r.company)).dedup

/-- The grand total `company_summary['Total_Revenue'].sum()`: the sum
of the already-rounded per-company revenues. -/
def summaryTotal (rows : List DerivedRow) : ℚ :=
  (((summaryCompanies rows).map (companyAgg rows)).map (fun e => e.totalRevenue)).sum

/-- `Market_Share_% = (Total_Revenue / total_revenue * 100).round(2)`:
elementwise float division (non-finite when the total is zero) followed
by rounding. -/
def addShare (total : ℚ) (e : CompanyEntry) : CompanyEntry :=
  { e with marketShare :=
      (pandasDiv e.totalRevenue total).map (fun q => round2 (q * 100)) }

/-- `generate_company_analysis`: group by COMPANY, aggregate and round,
then compute market share from the grand total of the (rounded) group
revenues, and sort by revenue descending for presentation.  The model
follows the api variant; the local variant computes the same columns
plus standard deviations not referenced by any claim.  Sorting is
modelled by insertion sort (the source delegates tie order to pandas). -/
def generate_company_analysis (rows : List DerivedRow) : List CompanyEntry :=
  List.insertionSort (fun a b => b.totalRevenue ≤ a.totalRevenue)
    (((summaryCompanies rows).map (companyAgg rows)).map (addShare (summaryTotal rows)))

/-! ## The analyze_data entry point -/

/-- The alias normalization `{'NAMT': 'TAXBLEAMT', 'PER': 'GST'}`. -/
def renameCol (c : String) : String :=
  if c = "NAMT" then "TAXBLEAMT" else if c = "PER" then "GST" else c

/-- The required columns checked by `analyze_data`. -/
def requiredCols : List String := ["ITNAME", "QTY", "TAXBLEAMT", "GST"]

/-- An input batch: the column names of the JSON-derived frame together
with the typed view of its rows (fields named after the renamed
columns). -/
structure InputBatch where
  cols : List String
  rows : List SalesRow

/-- The structured failure returned when required columns are missing:
an error string naming them plus the available column list. -/
structure AnalysisError where
  error : String
  availableColumns : List String
deriving DecidableEq

/-- The successful analysis output: per-row derived records and the
Company Summary. -/
structure AnalysisResult where
  rows : List DerivedRow
  companySummary : List CompanyEntry
deriving DecidableEq

/-- `analyze_data`: rename alias columns, fail for the whole batch when
a required column is missing, otherwise classify, derive and
aggregate. -/
def analyze_data (idx : String → Option String) (b : InputBatch) :
    Except AnalysisError AnalysisResult :=
  let cols := b.cols.map renameCol
  let missing := requiredCols.filter (fun c => ¬ cols.contains c)
  if missing = [] then
    let der := pipeline idx b.rows
    .ok { rows := der, companySummary := generate_company_analysis der }
  else
    .error { error := "Missing required columns: " ++ String.intercalate ", " missing,
             availableColumns := cols }

/-! ## Stock rows and stock metrics -/

/-- A stock-movement row; stock counts are integers and the closing
stock may be negative. -/
structure StockRow where
  itname : String
  opst : ℤ
  inward : ℤ
  total : ℤ
  outward : ℤ
  clst : ℤ
deriving DecidableEq

/-- `TURNOVER_RATIO`: `np.where(TOTAL > 0, OUTWARD / TOTAL * 100, 0)`. -/
def turnoverRatio (r : StockRow) : ℚ :=
  if 0 < r.total then (r.outward : ℚ) / (r.total : ℚ) * 100 else 0

/-- `STOCK_EFFICIENCY`: `np.where(TOTAL > 0, OUTWARD / TOTAL * 100, 0)`. -/
def stockEfficiency (r : StockRow) : ℚ :=
  if 0 < r.total then (r.outward : ℚ) / (r.total : ℚ) * 100 else 0

/-- `HAS_MOVEMENT`: `(INWARD > 0) | (OUTWARD > 0)`. -/
def hasMovement (r : StockRow) : Bool :=
  decide (0 < r.inward) || decide (0 < r.outward)

/-- `categorize_stock_status`. -/
def categorize_stock_status (r : StockRow) : String :=
  if r.clst ≤ 0 then "Out of Stock"
  else if r.clst ≤ 5 then "Low Stock"
  else if r.clst ≤ 20 then "Medium Stock"
  else if r.clst ≤ 50 then "Good Stock"
  else "High Stock"

/-- `categorize_movement`. -/
def categorize_movement (r : StockRow) : String :=
  if r.outward = 0 then "No Movement"
  else if 70 ≤ turnoverRatio r then "Fast Moving"
  else if 40 ≤ turnoverRatio r then "Medium Moving"
  else "Slow Moving"

/-- `HAS_NEGATIVE_STOCK`: `CLST < 0`. -/
def hasNegativeStock (r : StockRow) : Bool :=
  decide (r.clst < 0)

/-- `IS_DEAD_STOCK`: `(INWARD == 0) & (OUTWARD == 0) & (CLST > 0)`. -/
def isDeadStock (r : StockRow) : Bool :=
  decide (r.inward = 0) && decide (r.outward = 0) && decide (0 < r.clst)

/-- `IS_OVERSTOCKED`: `(CLST > 100) & (TURNOVER_RATIO < 30)`. -/
def isOverstocked (r : StockRow) : Bool :=
  decide (100 < r.clst) && decide (turnoverRatio r < 30)

/-- A stock row after `calculate_stock_metrics`. -/
structure StockDerived where
  row : StockRow
  turnover : ℚ
  efficiency : ℚ
  movementFlag : Bool
  status : String
  movement : String
  negativeFlag : Bool
  deadFlag : Bool
  overstockedFlag : Bool
deriving DecidableEq

/-- `calculate_stock_metrics` applied to one row (the source applies it
columnwise to the whole frame; every derived column is a function of
the row alone). -/
def calculate_stock_metrics (r : StockRow) : StockDerived :=
  { row := r,
    turnover := turnoverRatio r,
    efficiency := stockEfficiency r,
    movementFlag := hasMovement r,
    status := categorize_stock_status r,
    movement := categorize_movement r,
    negativeFlag := hasNegativeStock r,
    deadFlag := isDeadStock r,
    overstockedFlag := isOverstocked r }

/-! ## Rounding lemmas -/

theorem abs_roundHalfEven_sub (q : ℚ) : |(roundHalfEven q : ℚ) - q| ≤ 1/2 := by
  have h0 : (⌊q⌋ : ℚ) ≤ q := Int.floor_le q
  have h1 : q < ⌊q⌋ + 1 := Int.lt_floor_add_one q
  unfold roundHalfEven
  split_ifs with h h2 h3 <;> rw [abs_le] <;> push_cast <;> constructor <;> linarith

theorem abs_round2_sub (q : ℚ) : |round2 q - q| ≤ 1/200 := by
  have h := abs_roundHalfEven_sub (q * 100)
  have : round2 q - q = ((roundHalfEven (q * 100) : ℚ) - q * 100) / 100 := by
    unfold round2; ring
  rw [this, abs_div]
  rw [abs_of_pos (by norm_num : (0:ℚ) < 100)]
  linarith

theorem abs_sum_round2_sub (xs : List ℚ) :
    |(xs.map round2).sum - xs.sum| ≤ (xs.length : ℚ) / 200 := by
  induction xs with
  | nil => simp
  | cons x xs ih =>
    have h := abs_round2_sub x
    have tri : |round2 x - x + ((xs.map round2).sum - xs.sum)|
        ≤ |round2 x - x| + |(xs.map round2).sum - xs.sum| := abs_add _ _
    simp only [List.map_cons, List.sum_cons, List.length_cons]
    have e : round2 x + (xs.map round2).sum - (x + xs.sum)
        = round2 x - x + ((xs.map round2).sum - xs.sum) := by ring
    rw [e]
    push_cast
    calc |round2 x - x + ((xs.map round2).sum - xs.sum)|
        ≤ |round2 x - x| + |(xs.map round2).sum - xs.sum| := tri
      _ ≤ 1/200 + (xs.length : ℚ) / 200 := by linarith [ih]
      _ = ((xs.length : ℚ) + 1) / 200 := by ring

/-! ## Grouping lemmas -/

theorem toFinset_dedup (l : List String) : l.dedup.toFinset = l.toFinset := by
  ext a; simp [List.mem_dedup]

theorem sum_fiber {α : Type} (l : List α) (key : α → String) (f : α → ℚ) :
    ∑ c ∈ (l.map key).toFinset, ((l.filter (fun r => key r = c)).map f).sum
      = (l.map f).sum := by
  induction l with
  | nil => simp
  | cons r t ih =>
    have hterm : ∀ c, (((r :: t).filter (fun x => key x = c)).map f).sum
        = (if key r = c then f r else 0)
            + ((t.filter (fun x => key x = c)).map f).sum := by
      intro c
      by_cases hc : key r = c
      · simp [List.filter_cons, hc]
      · simp [List.filter_cons, hc]
    by_cases h : key r ∈ t.map key
    · have hset : ((r :: t).map key).toFinset = (t.map key).toFinset := by
        simp only [List.map_cons, List.toFinset_cons]
        exact Finset.insert_eq_self.2 (List.mem_toFinset.2 h)
      rw [hset]
      calc ∑ c ∈ (t.map key).toFinset,
              (((r :: t).filter (fun x => key x = c)).map f).sum
          = ∑ c ∈ (t.map key).toFinset,
              ((if key r = c then f r else 0)
                + ((t.filter (fun x => key x = c)).map f).sum) :=
            Finset.sum_congr rfl (fun c _ => hterm c)
        _ = (∑ c ∈ (t.map key).toFinset, if key r = c then f r else 0)
              + ∑ c ∈ (t.map key).toFinset,
                  ((t.filter (fun x => key x = c)).map f).sum :=
            Finset.sum_add_distrib
        _ = f r + (t.map f).sum := by
            rw [ih, Finset.sum_ite_eq (t.map key).toFinset (key r) (fun _ => f r)]
            simp [List.mem_toFinset.2 h]
        _ = ((r :: t).map f).sum := by simp
    · have hset : ((r :: t).map key).toFinset
          = insert (key r) (t.map key).toFinset := by
        simp [List.map_cons, List.toFinset_cons]
      rw [hset, Finset.sum_insert (fun hc => h (List.mem_toFinset.1 hc))]
      have hfil : t.filter (fun x => key x = key r) = [] := by
        refine List.filter_eq_nil_iff.2 (fun a ha => ?_)
        simp only [decide_eq_true_eq]
        intro he
        exact h (he ▸ List.mem_map_of_mem key ha)
      have hrest : ∑ c ∈ (t.map key).toFinset,
          (((r :: t).filter (fun x => key x = c)).map f).sum
          = ∑ c ∈ (t.map key).toFinset,
              ((t.filter (fun x => key x = c)).map f).sum := by
        refine Finset.sum_congr rfl (fun c hc => ?_)
        rw [hterm c, if_neg, zero_add]
        intro he
        exact h (he ▸ List.mem_toFinset.1 hc)
      rw [hterm (key r), if_pos rfl, hfil, hrest, ih]
      simp

/-! ## Reverse-index lemmas -/

theorem insertProducts_eq_of_not_mem (c s : String) (ps : List String) :
    ∀ m : String → Option String, s ∉ ps → insertProducts m c ps s = m s := by
  induction ps with
  | nil => intro m _; rfl
  | cons p ps ih =>
    intro m h
    have hs : ¬ s = p := fun e => h (by simp [e])
    have h2 : s ∉ ps := fun hm => h (List.mem_cons_of_mem _ hm)
    show insertProducts (fun t => if t = p then some c else m t) c ps s = m s
    rw [ih _ h2]
    simp [hs]

theorem insertProducts_some (c s d : String) (ps : List String) :
    ∀ m : String → Option String, insertProducts m c ps s = some d →
      (s ∈ ps ∧ d = c) ∨ m s = some d := by
  induction ps with
  | nil => intro m h; exact Or.inr h
  | cons p ps ih =>
    intro m h
    rcases ih _ h with ⟨hmem, hd⟩ | hm
    · exact Or.inl ⟨List.mem_cons_of_mem _ hmem, hd⟩
    · by_cases hs : s = p
      · have hcd : some c = some d := by simpa [hs] using hm
        exact Or.inl ⟨by simp [hs], (Option.some.inj hcd).symm⟩
      · have hm2 : m s = some d := by simpa [hs] using hm
        exact Or.inr hm2

theorem foldlIndex_some (s d : String) (cat : Catalog) :
    ∀ m : String → Option String,
      (cat.foldl (fun acc e => insertProducts acc e.1 e.2) m) s = some d →
        (∃ ps, (d, ps) ∈ cat ∧ s ∈ ps) ∨ m s = some d := by
  induction cat with
  | nil => intro m h; exact Or.inr h
  | cons e t ih =>
    intro m h
    rcases ih _ h with ⟨ps, hmem, hs⟩ | hm
    · exact Or.inl ⟨ps, List.mem_cons_of_mem _ hmem, hs⟩
    · rcases insertProducts_some e.1 s d e.2 m hm with ⟨hmem, hd⟩ | hm2
      · subst hd
        exact Or.inl ⟨e.2, by simp, hmem⟩
      · exact Or.inr hm2

theorem foldlIndex_skip (s : String) (cat : Catalog) :
    ∀ m : String → Option String, (∀ c ps, (c, ps) ∈ cat → s ∉ ps) →
      (cat.foldl (fun acc e => insertProducts acc e.1 e.2) m) s = m s := by
  induction cat with
  | nil => intro m _; rfl
  | cons e t ih =>
    intro m h
    have h1 : s ∉ e.2 := h e.1 e.2 (by simp)
    have h2 : ∀ c ps, (c, ps) ∈ t → s ∉ ps :=
      fun c ps hm => h c ps (List.mem_cons_of_mem _ hm)
    show (t.foldl (fun acc e => insertProducts acc e.1 e.2)
      (insertProducts m e.1 e.2)) s = m s
    rw [ih _ h2, insertProducts_eq_of_not_mem e.1 s e.2 m h1]

theorem buildIndex_some (cat : Catalog) (s d : String)
    (h : buildIndex cat s = some d) : ∃ ps, (d, ps) ∈ cat ∧ s ∈ ps := by
  rcases foldlIndex_some s d cat (fun _ => none) h with hex | hnone
  · exact hex
  · cases hnone

theorem buildIndex_none (cat : Catalog) (s : String)
    (h : ∀ c ps, (c, ps) ∈ cat → s ∉ ps) : buildIndex cat s = none :=
  foldlIndex_skip s cat (fun _ => none) h

/-! ## Percentile-rank lemmas -/

theorem countLt_add_countEq (vals : List ℚ) (v : ℚ) :
    countLt vals v + countEq vals v = countLe vals v := by
  induction vals with
  | nil => rfl
  | cons x xs ih =>
    by_cases h1 : x < v
    · have h2 : ¬ x = v := ne_of_lt h1
      have h3 : x ≤ v := le_of_lt h1
      simp [countLt, countEq, countLe, List.filter_cons, h1, h2, h3] at *
      omega
    · by_cases h2 : x = v
      · have h3 : x ≤ v := le_of_eq h2
        simp [countLt, countEq, countLe, List.filter_cons, h1, h2, h3] at *
        omega
      · have h3 : ¬ x ≤ v := fun hle => h2 (le_antisymm hle (not_lt.1 h1))
        simp [countLt, countEq, countLe, List.filter_cons, h1, h2, h3] at *
        omega

theorem countLt_mono (vals : List ℚ) {v w : ℚ} (h : v ≤ w) :
    countLt vals v ≤ countLt vals w := by
  unfold countLt
  rw [← List.countP_eq_length_filter, ← List.countP_eq_length_filter]
  refine List.countP_mono_left (fun x _ hx => ?_)
  simp only [decide_eq_true_eq] at *
  exact lt_of_lt_of_le hx h

theorem countLe_le_countLt (vals : List ℚ) {v w : ℚ} (h : v < w) :
    countLe vals v ≤ countLt vals w := by
  unfold countLe countLt
  rw [← List.countP_eq_length_filter, ← List.countP_eq_length_filter]
  refine List.countP_mono_left (fun x _ hx => ?_)
  simp only [decide_eq_true_eq] at *
  exact lt_of_le_of_lt hx h

theorem countLe_eq_length (vals : List ℚ) (v : ℚ) (h : ∀ x ∈ vals, x ≤ v) :
    countLe vals v = vals.length := by
  unfold countLe
  rw [List.filter_eq_self.2 (fun x hx => by simpa using h x hx)]

theorem countEq_pos_of_mem {vals : List ℚ} {v : ℚ} (h : v ∈ vals) :
    0 < countEq vals v := by
  unfold countEq
  rw [← List.countP_eq_length_filter]
  exact List.countP_pos_iff.2 ⟨v, h, by simp⟩

theorem avgRank_mono (vals : List ℚ) {v w : ℚ} (h : v ≤ w) :
    avgRank vals v ≤ avgRank vals w := by
  rcases eq_or_lt_of_le h with rfl | hlt
  · exact le_refl _
  · have h1 : countLe vals v ≤ countLt vals w := countLe_le_countLt vals hlt
    have h2 : countLt vals v + countEq vals v = countLe vals v :=
      countLt_add_countEq vals v
    have h1q : (countLe vals v : ℚ) ≤ (countLt vals w : ℚ) := by exact_mod_cast h1
    have h2q : (countLt vals v : ℚ) + (countEq vals v : ℚ) = (countLe vals v : ℚ) := by
      exact_mod_cast h2
    have h3 : (0:ℚ) ≤ (countEq vals w : ℚ) := Nat.cast_nonneg _
    have h4 : (0:ℚ) ≤ (countEq vals v : ℚ) := Nat.cast_nonneg _
    unfold avgRank
    linarith

theorem percentile_mono (vals : List ℚ) {v w : ℚ} (h : v ≤ w) :
    percentile vals v ≤ percentile vals w := by
  unfold percentile pctRank
  have h1 : avgRank vals v ≤ avgRank vals w := avgRank_mono vals h
  have h2 : avgRank vals v / (vals.length : ℚ) ≤ avgRank vals w / (vals.length : ℚ) :=
    div_le_div_of_nonneg_right h1 (Nat.cast_nonneg _)
  linarith

theorem rangeSum (c : ℚ) (k : ℕ) :
    ((List.range k).map (fun m : ℕ => c + (m : ℚ) + 1)).sum
      = (k : ℚ) * c + (k : ℚ) * ((k : ℚ) + 1) / 2 := by
  induction k with
  | zero => simp
  | succ k ih =>
    rw [List.range_succ, List.map_append, List.sum_append]
    simp only [List.map_cons, List.map_nil, List.sum_cons, List.sum_nil]
    rw [ih]
    push_cast
    ring

theorem avgRank_mul_countEq (vals : List ℚ) (v : ℚ) :
    avgRank vals v * (countEq vals v : ℚ)
      = ((List.range (countEq vals v)).map
          (fun m : ℕ => (countLt vals v : ℚ) + (m : ℚ) + 1)).sum := by
  rw [rangeSum]
  unfold avgRank
  ring

theorem percentile_max_unique (vals : List ℚ) (v : ℚ) (hmem : v ∈ vals)
    (hmax : ∀ x ∈ vals, x ≤ v) (huniq : countEq vals v = 1) :
    percentile vals v = 100 := by
  have hle : countLe vals v = vals.length := countLe_eq_length vals v hmax
  have hsum : countLt vals v + countEq vals v = countLe vals v :=
    countLt_add_countEq vals v
  have hlen : 0 < vals.length := List.length_pos_of_mem hmem
  have hlt : countLt vals v = vals.length - 1 := by omega
  have hrank : avgRank vals v = (vals.length : ℚ) := by
    unfold avgRank
    rw [hlt, huniq]
    have : ((vals.length - 1 : ℕ) : ℚ) = (vals.length : ℚ) - 1 := by
      push_cast [hlen]
      ring
    rw [this]
    norm_num
  unfold percentile pctRank
  rw [hrank, div_self (by exact_mod_cast Nat.pos_iff_ne_zero.1 hlen)]
  norm_num

/-! ## Summary-structure lemmas -/

theorem addShare_company (t : ℚ) (e : CompanyEntry) :
    (addShare t e).company = e.company := rfl

theorem addShare_totalRevenue (t : ℚ) (e : CompanyEntry) :
    (addShare t e).totalRevenue = e.totalRevenue := rfl

theorem companyAgg_company (rows : List DerivedRow) (c : String) :
    (companyAgg rows c).company = c := rfl

theorem companyAgg_totalRevenue (rows : List DerivedRow) (c : String) :
    (companyAgg rows c).totalRevenue = round2 (groupRevenue rows c) := rfl

theorem summary_perm (rows : List DerivedRow) :
    List.Perm (generate_company_analysis rows)
      (((rows.map (fun r => r.company)).dedup).map
        (fun c => addShare (summaryTotal rows) (companyAgg rows c))) := by
  unfold generate_company_analysis
  refine (List.perm_insertionSort _ _).trans ?_
  rw [List.map_map]
  exact (List.perm_insertionSort _ _).map _

theorem summary_sum_list (rows : List DerivedRow) (f : CompanyEntry → ℚ) :
    ((generate_company_analysis rows).map f).sum
      = (((rows.map (fun r => r.company)).dedup).map
          (fun c => f (addShare (summaryTotal rows) (companyAgg rows c)))).sum := by
  have hp := (summary_perm rows).map f
  rw [hp.sum_eq, List.map_map]
  rfl

theorem summary_length (rows : List DerivedRow) :
    (generate_company_analysis rows).length
      = ((rows.map (fun r => r.company)).dedup).length := by
  rw [(summary_perm rows).length_eq, List.length_map]

theorem summary_mem (rows : List DerivedRow) (e : CompanyEntry)
    (h : e ∈ generate_company_analysis rows) :
    ∃ c, e = addShare (summaryTotal rows) (companyAgg rows c) := by
  have := (summary_perm rows).mem_iff.1 h
  obtain ⟨c, _, he⟩ := List.mem_map.1 this
  exact ⟨c, he.symm⟩

theorem dedup_groupRevenue_sum (rows : List DerivedRow) :
    (((rows.map (fun r => r.company)).dedup).map (groupRevenue rows)).sum
      = (rows.map (fun r => r.taxbleamt)).sum := by
  rw [← List.sum_toFinset _ (List.nodup_dedup _), toFinset_dedup]
  exact sum_fiber rows (fun r => r.company) (fun r => r.taxbleamt)

theorem summaryTotal_eq (rows : List DerivedRow) :
    summaryTotal rows
      = (((rows.map (fun r => r.company)).dedup).map
          (fun c => round2 (groupRevenue rows c))).sum := by
  unfold summaryTotal summaryCompanies
  rw [List.map_map]
  have hp := (List.perm_insertionSort (fun a b : String => a ≤ b)
    (rows.map (fun r => r.company)).dedup).map
    ((fun e => e.totalRevenue) ∘ companyAgg rows)
  rw [hp.sum_eq]
  rfl

theorem pipeline_taxbleamt (idx : String → Option String) (batch : List SalesRow) :
    (pipeline idx batch).map (fun r => r.taxbleamt)
      = batch.map (fun r => r.taxbleamt) := by
  unfold pipeline calculate_advanced_metrics categorize_by_company
  simp [List.map_map]

theorem round2_intCast (n : ℤ) : round2 (n : ℚ) = n := by
  have h : (n : ℚ) * 100 = ((n * 100 : ℤ) : ℚ) := by push_cast; ring
  unfold round2 roundHalfEven
  rw [h, Int.floor_intCast]
  norm_num

/-! ## Claim C1 -/

/-- C1 (counterexample): with catalog entry "Agas 250gms" under
"Adama" and row product name " Agas 250gms" (leading space), the
claimed trim-both-sides lookup matches and yields "Adama", but the
code trims only the catalog side and looks the row value up as-is,
yielding "Other". -/
theorem C1_counterexample :
    classify (productToCompany [("Adama", ["Agas 250gms"])]) " Agas 250gms"
        = "Other"
    ∧ specClassify [("Adama", ["Agas 250gms"])] " Agas 250gms" = "Adama" := by
  constructor <;> decide

/-- C1 (amended): classification is an exact, case-sensitive match of
the row's product-name field taken as-is (not trimmed) against the
reverse-index keys, which are the catalog entries trimmed at load
time: any assigned company is witnessed by a catalog product whose
trimmed spelling equals the row value exactly, and when no trimmed
catalog product equals the row value the sentinel "Other" is
assigned. -/
theorem C1_classification (raw : Catalog) (itname : String) :
    (classify (productToCompany raw) itname = "Other"
      ∨ ∃ e ∈ raw, ∃ p ∈ e.2, strip p = itname
          ∧ classify (productToCompany raw) itname = e.1)
    ∧ ((∀ e ∈ raw, ∀ p ∈ e.2, strip p ≠ itname)
        → classify (productToCompany raw) itname = "Other") := by
  constructor
  · cases hidx : productToCompany raw itname with
    | none => left; simp [classify, hidx]
    | some d =>
      right
      obtain ⟨qs, hmem, hin⟩ := buildIndex_some _ _ _ hidx
      obtain ⟨e, hraw, heq⟩ := List.mem_map.1 hmem
      have hc : e.1 = d := congrArg Prod.fst heq
      have hqs : (e.2.map strip).filter (fun p => p ≠ "") = qs :=
        congrArg Prod.snd heq
      have hin2 : itname ∈ e.2.map strip :=
        List.mem_of_mem_filter (hqs ▸ hin)
      obtain ⟨p, hp, htrim⟩ := List.mem_map.1 hin2
      exact ⟨e, hraw, p, hp, htrim, by simp [classify, hidx, hc]⟩
  · intro h
    have hnone : productToCompany raw itname = none := by
      apply buildIndex_none
      intro c qs hmem hin
      obtain ⟨e, hraw, heq⟩ := List.mem_map.1 hmem
      have hqs : (e.2.map strip).filter (fun p => p ≠ "") = qs :=
        congrArg Prod.snd heq
      have hin2 : itname ∈ e.2.map strip :=
        List.mem_of_mem_filter (hqs ▸ hin)
      obtain ⟨p, hp, htrim⟩ := List.mem_map.1 hin2
      exact h e hraw p hp htrim
    simp [classify, hnone]

/-- Witness for C1: a product name absent from the catalog classifies
as "Other". -/
theorem C1_classification_witness :
    classify (productToCompany [("Adama", ["Agas 250gms"])]) "Nomolt 250ml"
      = "Other" :=
  (C1_classification [("Adama", ["Agas 250gms"])] "Nomolt 250ml").2 (by decide)

/-! ## Claim C5 -/

/-- C5: the stock metric deriver computes the guarded turnover ratio
(0 when total available is nonpositive), the five stock-status bands
with inclusive lower boundaries, the movement categories with
"No Movement" taking precedence at zero outward and the 70/40 turnover
thresholds, and the three problem flags; in particular the row with
opening 0, inward 0, outward 0, closing 5 is dead stock with no
movement and "Low Stock" status. -/
theorem C5_stock_metrics (r : StockRow) :
    ((calculate_stock_metrics r).turnover
        = if r.total ≤ 0 then 0 else (r.outward : ℚ) / (r.total : ℚ) * 100)
    ∧ ((calculate_stock_metrics r).status = "Out of Stock" ↔ r.clst ≤ 0)
    ∧ ((calculate_stock_metrics r).status = "Low Stock"
        ↔ 1 ≤ r.clst ∧ r.clst ≤ 5)
    ∧ ((calculate_stock_metrics r).status = "Medium Stock"
        ↔ 6 ≤ r.clst ∧ r.clst ≤ 20)
    ∧ ((calculate_stock_metrics r).status = "Good Stock"
        ↔ 21 ≤ r.clst ∧ r.clst ≤ 50)
    ∧ ((calculate_stock_metrics r).status = "High Stock" ↔ 50 < r.clst)
    ∧ ((calculate_stock_metrics r).movement = "No Movement" ↔ r.outward = 0)
    ∧ ((calculate_stock_metrics r).movement = "Fast Moving"
        ↔ r.outward ≠ 0 ∧ 70 ≤ turnoverRatio r)
    ∧ ((calculate_stock_metrics r).movement = "Medium Moving"
        ↔ r.outward ≠ 0 ∧ 40 ≤ turnoverRatio r ∧ turnoverRatio r < 70)
    ∧ ((calculate_stock_metrics r).movement = "Slow Moving"
        ↔ r.outward ≠ 0 ∧ turnoverRatio r < 40)
    ∧ ((calculate_stock_metrics r).negativeFlag = true ↔ r.clst < 0)
    ∧ ((calculate_stock_metrics r).deadFlag = true
        ↔ r.inward = 0 ∧ r.outward = 0 ∧ 0 < r.clst)
    ∧ ((calculate_stock_metrics r).overstockedFlag = true
        ↔ 100 < r.clst ∧ turnoverRatio r < 30)
    ∧ ((calculate_stock_metrics ⟨"item", 0, 0, 0, 0, 5⟩).deadFlag = true
        ∧ (calculate_stock_metrics ⟨"item", 0, 0, 0, 0, 5⟩).movement
            = "No Movement"
        ∧ (calculate_stock_metrics ⟨"item", 0, 0, 0, 0, 5⟩).status
            = "Low Stock") := by
  refine ⟨?_, ?_, ?_, ?_, ?_, ?_, ?_, ?_, ?_, ?_, ?_, ?_, ?_, ?_⟩
  · show turnoverRatio r = _
    unfold turnoverRatio
    rcases lt_or_le 0 r.total with h | h
    · rw [if_pos h, if_neg (not_le.2 h)]
    · rw [if_neg (not_lt.2 h), if_pos h]
  · show categorize_stock_status r = _ ↔ _
    unfold categorize_stock_status
    split_ifs <;> simp <;> omega
  · show categorize_stock_status r = _ ↔ _
    unfold categorize_stock_status
    split_ifs <;> simp <;> omega
  · show categorize_stock_status r = _ ↔ _
    unfold categorize_stock_status
    split_ifs <;> simp <;> omega
  · show categorize_stock_status r = _ ↔ _
    unfold categorize_stock_status
    split_ifs <;> simp <;> omega
  · show categorize_stock_status r = _ ↔ _
    unfold categorize_stock_status
    split_ifs <;> simp <;> omega
  · show categorize_movement r = _ ↔ _
    unfold categorize_movement
    split_ifs <;> simp [*]
  · show categorize_movement r = _ ↔ _
    unfold categorize_movement
    split_ifs with h1 h2 h3 <;> simp [*]
  · show categorize_movement r = _ ↔ _
    unfold categorize_movement
    split_ifs with h1 h2 h3
    · simp [h1]
    · simp [h1, h2]
    · simp [h1, h3, not_le.1 h2]
    · simp [h1, h3]
  · show categorize_movement r = _ ↔ _
    unfold categorize_movement
    split_ifs with h1 h2 h3
    · simp [h1]
    · simp [h1]
      linarith
    · simp [h1]
      linarith
    · simp [h1, not_le.1 h3]
  · show hasNegativeStock r = true ↔ _
    unfold hasNegativeStock
    simp
  · show isDeadStock r = true ↔ _
    unfold isDeadStock
    simp [and_assoc]
  · show isOverstocked r = true ↔ _
    unfold isOverstocked
    simp
  · refine ⟨by decide, by decide, by decide⟩

/-! ## Claim C10 -/

/-- C10: the derived STOCK_EFFICIENCY column always equals the derived
TURNOVER_RATIO column: both are computed by the identical guarded
formula outward/total times 100 with 0 when total is nonpositive, so
the two columns can never differ for any input row. -/
theorem C10_efficiency_eq_turnover (r : StockRow) :
    (calculate_stock_metrics r).efficiency = (calculate_stock_metrics r).turnover :=
  rfl

/-! ## Claim C8 -/

/-- C8: the unit-price derivation is total and row-local: in any batch,
each row's PRICE_PER_UNIT is the guarded division of its own taxable
amount by its own quantity, unaffected by the surrounding rows, and a
zero quantity produces the non-finite marker (NaN or inf, modelled
`none`) for that row alone instead of raising. -/
theorem C8_unit_price (pre post : List CatRow) (r : CatRow) :
    ((calculate_advanced_metrics (pre ++ r :: post)).map (fun d => d.pricePerUnit)
      = pre.map (fun s => pandasDiv s.taxbleamt s.qty)
          ++ pandasDiv r.taxbleamt r.qty
            :: post.map (fun s => pandasDiv s.taxbleamt s.qty))
    ∧ (∀ t : ℚ, pandasDiv t 0 = none) := by
  constructor
  · unfold calculate_advanced_metrics
    simp [List.map_map, List.map_append, Function.comp_def]
  · intro t
    simp [pandasDiv]

/-! ## Claim C9 -/

/-- C9: when, after alias renaming, any required column among ITNAME,
QTY, TAXBLEAMT and GST is absent, the whole batch fails with a
structured error naming the missing columns and listing the available
column names, and no per-row results are produced. -/
theorem C9_missing_columns (idx : String → Option String) (b : InputBatch)
    (h : requiredCols.filter
        (fun c => ¬ (b.cols.map renameCol).contains c) ≠ []) :
    analyze_data idx b = .error
      { error := "Missing required columns: " ++ String.intercalate ", "
          (requiredCols.filter (fun c => ¬ (b.cols.map renameCol).contains c)),
        availableColumns := b.cols.map renameCol } := by
  unfold analyze_data
  rw [if_neg h]

/-- Witness for C9: a batch whose only column is ITNAME fails with the
three missing columns reported alongside the available ones. -/
theorem C9_missing_columns_witness :
    analyze_data (fun _ => none) { cols := ["ITNAME"], rows := [] }
      = .error
        { error := "Missing required columns: " ++ String.intercalate ", "
            (requiredCols.filter
              (fun c => ¬ ((["ITNAME"].map renameCol).contains c))),
          availableColumns := ["ITNAME"].map renameCol } :=
  C9_missing_columns (fun _ => none) { cols := ["ITNAME"], rows := [] } (by decide)

/-! ## Claim C6 -/

/-- C6 (counterexample): in a single-row batch both fields have zero
range, and the code's min-max normalization divides zero by zero, so
the performance score is NaN (modelled `none`), not 0 as the claim
states. -/
theorem C6_counterexample :
    (calculate_advanced_metrics
        [{ itname := "Agas 250gms", qty := 1, taxbleamt := 600, gst := 18,
           company := "Adama" }]).map (fun d => d.performanceScore) = [none]
    ∧ ([none] : List (Option ℚ)) ≠ [some 0] := by
  constructor
  · simp [calculate_advanced_metrics, minMaxNorm, pandasDiv, listMin, listMax]
  · simp

/-- C6 (amended): the performance score column equals
(normalizedRevenue times 0.6 plus normalizedQuantity times 0.4) times
100 under min-max scaling across the full batch whenever both fields
have nonzero range; when either field has zero range (all its values
in the batch equal) the normalized values, and hence the score, are
NaN (modelled `none`) for every row, not 0. -/
theorem C6_performance (cat : List CatRow) :
    (calculate_advanced_metrics cat).map (fun d => d.performanceScore)
      = cat.map (fun r =>
          if listMax (cat.map (fun s => s.taxbleamt))
                = listMin (cat.map (fun s => s.taxbleamt))
              ∨ listMax (cat.map (fun s => s.qty))
                = listMin (cat.map (fun s => s.qty))
          then none
          else some (((r.taxbleamt - listMin (cat.map (fun s => s.taxbleamt)))
                  / (listMax (cat.map (fun s => s.taxbleamt))
                      - listMin (cat.map (fun s => s.taxbleamt))) * (6/10)
                + (r.qty - listMin (cat.map (fun s => s.qty)))
                  / (listMax (cat.map (fun s => s.qty))
                      - listMin (cat.map (fun s => s.qty))) * (4/10)) * 100)) := by
  unfold calculate_advanced_metrics
  rw [List.map_map]
  refine List.map_congr_left (fun r hr => ?_)
  simp only [Function.comp_def]
  by_cases h1 : listMax (cat.map (fun s => s.taxbleamt))
      - listMin (cat.map (fun s => s.taxbleamt)) = 0
  · have e1 : listMax (cat.map (fun s => s.taxbleamt))
        = listMin (cat.map (fun s => s.taxbleamt)) := sub_eq_zero.1 h1
    simp [minMaxNorm, pandasDiv, h1, e1]
  · have e1 : ¬ listMax (cat.map (fun s => s.taxbleamt))
        = listMin (cat.map (fun s => s.taxbleamt)) := fun h => h1 (sub_eq_zero.2 h)
    by_cases h2 : listMax (cat.map (fun s => s.qty))
        - listMin (cat.map (fun s => s.qty)) = 0
    · have e2 : listMax (cat.map (fun s => s.qty))
          = listMin (cat.map (fun s => s.qty)) := sub_eq_zero.1 h2
      simp [minMaxNorm, pandasDiv, h1, h2, e1, e2]
    · have e2 : ¬ listMax (cat.map (fun s => s.qty))
          = listMin (cat.map (fun s => s.qty)) := fun h => h2 (sub_eq_zero.2 h)
      simp [minMaxNorm, pandasDiv, h1, h2, e1, e2]

/-! ## Claim C7 -/

/-- C7 (counterexample): in a batch of two rows with equal taxable
amounts, both rows hold the maximum value, yet the average-rank method
gives each a revenue percentile of 75, not 100, so a row holding the
batch maximum does not always receive percentile 100. -/
theorem C7_counterexample :
    (calculate_advanced_metrics
        [{ itname := "A", qty := 1, taxbleamt := 5, gst := 18, company := "Other" },
         { itname := "B", qty := 2, taxbleamt := 5, gst := 18, company := "Other" }]).map
        (fun d => d.revenuePercentile) = [75, 75]
    ∧ (∀ x ∈ [(5:ℚ), 5], x ≤ 5)
    ∧ (75:ℚ) ≠ 100 := by
  refine ⟨?_, by norm_num, by norm_num⟩
  have h1 : countLt [(5:ℚ), 5] 5 = 0 := by
    norm_num [countLt, List.filter]
  have h2 : countEq [(5:ℚ), 5] 5 = 2 := by
    norm_num [countEq, List.filter]
  simp only [calculate_advanced_metrics, List.map_cons, List.map_nil]
  rw [show percentile [(5:ℚ), 5] 5 = 75 by
    unfold percentile pctRank
    rw [show avgRank [(5:ℚ), 5] 5 = 3/2 by unfold avgRank; rw [h1, h2]; norm_num]
    norm_num]

/-- C7 (amended): percentile ranks are monotone non-decreasing in the
underlying value, tied values share the average rank of their tied
group (the mean of the consecutive positions the group occupies), and
a row holding the maximum value receives percentile 100 when that
maximum is unique; a tied maximum shares an average rank strictly
below the top position. -/
theorem C7_percentiles (cat : List CatRow) :
    (∀ d ∈ calculate_advanced_metrics cat, ∀ e ∈ calculate_advanced_metrics cat,
        (d.taxbleamt ≤ e.taxbleamt → d.revenuePercentile ≤ e.revenuePercentile)
        ∧ (d.qty ≤ e.qty → d.qtyPercentile ≤ e.qtyPercentile))
    ∧ (∀ vals : List ℚ, ∀ v : ℚ,
        avgRank vals v * (countEq vals v : ℚ)
          = ((List.range (countEq vals v)).map
              (fun m : ℕ => (countLt vals v : ℚ) + (m : ℚ) + 1)).sum)
    ∧ (∀ vals : List ℚ, ∀ v ∈ vals, (∀ x ∈ vals, x ≤ v) →
        countEq vals v = 1 → percentile vals v = 100) := by
  refine ⟨?_, fun vals v => avgRank_mul_countEq vals v,
    fun vals v hv hmax h1 => percentile_max_unique vals v hv hmax h1⟩
  intro d hd e he
  unfold calculate_advanced_metrics at hd he
  obtain ⟨a, ha, rfl⟩ := List.mem_map.1 hd
  obtain ⟨b, hb, rfl⟩ := List.mem_map.1 he
  constructor
  · intro hle
    exact percentile_mono _ hle
  · intro hle
    exact percentile_mono _ hle

/-- Witness for C7: the unique maximum of a two-value batch receives
percentile 100. -/
theorem C7_percentiles_witness : percentile [(3:ℚ), 5] 5 = 100 :=
  (C7_percentiles []).2.2 [3, 5] 5 (by norm_num) (by norm_num)
    (by norm_num [countEq, List.filter])

/-! ## Claim C2 -/

/-- C2 (counterexample): a single-row batch with taxable amount 1/1000
has Company Summary revenue 0 after the 2-decimal rounding, so the
summary total does not equal the batch total exactly. -/
theorem C2_counterexample :
    ((generate_company_analysis (pipeline (fun _ => none)
        [{ itname := "X", qty := 1, taxbleamt := 1/1000, gst := 18 }])).map
        (fun e => e.totalRevenue)).sum = 0
    ∧ (([{ itname := "X", qty := 1, taxbleamt := 1/1000, gst := 18 }] :
          List SalesRow).map (fun r => r.taxbleamt)).sum = 1/1000
    ∧ (0:ℚ) ≠ 1/1000 := by
  refine ⟨?_, by norm_num, by norm_num⟩
  have hround : round2 (1/1000 : ℚ) = 0 := by
    unfold round2 roundHalfEven
    have h10 : (1/1000 : ℚ) * 100 = 1/10 := by norm_num
    have hf : ⌊(1/10 : ℚ)⌋ = 0 := by
      rw [Int.floor_eq_zero_iff]
      constructor <;> norm_num
    rw [h10, hf]
    norm_num
  have hround2 : round2 ((1000:ℚ)⁻¹) = 0 := by
    rw [← one_div]
    exact hround
  simp [generate_company_analysis, summaryCompanies, summaryTotal, pipeline,
    categorize_by_company, calculate_advanced_metrics, companyAgg, addShare,
    groupRevenue, List.insertionSort, List.orderedInsert, hround, hround2]

/-- C2 (amended): the per-company revenue sums partition the batch
exactly: summed before rounding they equal the batch total taxable
amount, with no row dropped or double-counted; the published
Total_Revenue values are those group sums rounded to 2 decimals, so
the Company Summary total can differ from the batch total by at most
0.005 per company. -/
theorem C2_revenue_partition (idx : String → Option String)
    (batch : List SalesRow) :
    ((generate_company_analysis (pipeline idx batch)).map
        (fun e => groupRevenue (pipeline idx batch) e.company)).sum
      = (batch.map (fun r => r.taxbleamt)).sum
    ∧ |((generate_company_analysis (pipeline idx batch)).map
          (fun e => e.totalRevenue)).sum
        - (batch.map (fun r => r.taxbleamt)).sum|
      ≤ ((generate_company_analysis (pipeline idx batch)).length : ℚ) / 200 := by
  have hbatch : ((pipeline idx batch).map (fun r => r.taxbleamt)).sum
      = (batch.map (fun r => r.taxbleamt)).sum := by
    rw [pipeline_taxbleamt]
  constructor
  · rw [summary_sum_list (pipeline idx batch)
      (fun e => groupRevenue (pipeline idx batch) e.company)]
    simp only [addShare_company, companyAgg_company]
    exact (dedup_groupRevenue_sum (pipeline idx batch)).trans hbatch
  · rw [summary_sum_list (pipeline idx batch) (fun e => e.totalRevenue),
      summary_length (pipeline idx batch)]
    simp only [addShare_totalRevenue, companyAgg_totalRevenue]
    have habs := abs_sum_round2_sub
      ((((pipeline idx batch).map (fun r => r.company)).dedup).map
        (groupRevenue (pipeline idx batch)))
    rw [List.map_map, List.length_map,
      dedup_groupRevenue_sum (pipeline idx batch), hbatch] at habs
    simpa [Function.comp_def] using habs

/-! ## Claim C3 -/

/-- C3: the single-row scenario: batch ITNAME "Agas 250gms", QTY 1,
TAXBLEAMT 600, GST 18 with catalog mapping "Agas 250gms" to "Adama":
the row is assigned company "Adama" with tax amount 108 and total
with tax 708; the Company Summary holds exactly the entry "Adama"
with product count 1, revenue 600 and market share 100 percent; and
analyze_data succeeds on this batch returning those results. -/
theorem C3_scenario :
    ((pipeline (productToCompany [("Adama", ["Agas 250gms"])])
        [{ itname := "Agas 250gms", qty := 1, taxbleamt := 600, gst := 18 }]).map
        (fun d => (d.company, d.gstAmount, d.totalWithGst))
      = [("Adama", (108:ℚ), (708:ℚ))])
    ∧ ((generate_company_analysis
        (pipeline (productToCompany [("Adama", ["Agas 250gms"])])
          [{ itname := "Agas 250gms", qty := 1, taxbleamt := 600, gst := 18 }])).map
        (fun e => (e.company, e.productCount, e.totalRevenue, e.marketShare))
      = [("Adama", 1, (600:ℚ), some (100:ℚ))])
    ∧ analyze_data (productToCompany [("Adama", ["Agas 250gms"])])
        { cols := ["ITNAME", "QTY", "TAXBLEAMT", "GST"],
          rows := [{ itname := "Agas 250gms", qty := 1, taxbleamt := 600, gst := 18 }] }
      = Except.ok
        { rows := pipeline (productToCompany [("Adama", ["Agas 250gms"])])
            [{ itname := "Agas 250gms", qty := 1, taxbleamt := 600, gst := 18 }],
          companySummary := generate_company_analysis
            (pipeline (productToCompany [("Adama", ["Agas 250gms"])])
              [{ itname := "Agas 250gms", qty := 1, taxbleamt := 600, gst := 18 }]) } := by
  have hidx : productToCompany [("Adama", ["Agas 250gms"])] "Agas 250gms"
      = some "Adama" := by decide
  have h600 : round2 (600:ℚ) = 600 := by
    have h := round2_intCast 600
    push_cast at h
    exact h
  have h100 : round2 (100:ℚ) = 100 := by
    have h := round2_intCast 100
    push_cast at h
    exact h
  refine ⟨?_, ?_, ?_⟩
  · simp [pipeline, categorize_by_company, calculate_advanced_metrics, hidx]
    norm_num
  · simp only [pipeline, categorize_by_company, calculate_advanced_metrics,
      List.map_cons, List.map_nil, hidx, Option.getD_some]
    simp [generate_company_analysis, summaryCompanies, summaryTotal,
      companyAgg, addShare, groupRevenue, pandasDiv,
      List.insertionSort, List.orderedInsert, h600]
    norm_num [h100]
  · simp only [analyze_data]
    rw [if_pos (by decide)]

/-! ## Claim C4 -/

/-- C4 (counterexample): a batch whose only row has taxable amount 0
has summary grand total 0, and the market-share division 0/0 yields
NaN (modelled `none`), not the 0 percent the claim states; no
exception is raised. -/
theorem C4_counterexample :
    (generate_company_analysis (pipeline (fun _ => none)
        [{ itname := "X", qty := 1, taxbleamt := 0, gst := 18 }])).map
        (fun e => e.marketShare) = [none]
    ∧ ([none] : List (Option ℚ)) ≠ [some 0] := by
  refine ⟨?_, by simp⟩
  have h0 : round2 (0:ℚ) = 0 := by
    have h := round2_intCast 0
    push_cast at h
    exact h
  simp [generate_company_analysis, summaryCompanies, summaryTotal, pipeline,
    categorize_by_company, calculate_advanced_metrics, companyAgg, addShare,
    groupRevenue, pandasDiv, List.insertionSort, List.orderedInsert, h0]

/-- C4 (amended): whenever the summary grand total (the sum of the
rounded per-company revenues, the divisor the code actually uses) is
nonzero, every market share equals the rounded percentage of that
total and the shares sum to 100 percent within 0.005 per company;
when that grand total is zero the division yields NaN (modelled
`none`) for every company — not 0 percent — and no exception is
raised. -/
theorem C4_market_share (idx : String → Option String) (batch : List SalesRow) :
    (summaryTotal (pipeline idx batch) ≠ 0 →
      (∀ e ∈ generate_company_analysis (pipeline idx batch),
          e.marketShare = some (round2 (e.totalRevenue
              / summaryTotal (pipeline idx batch) * 100)))
      ∧ |((generate_company_analysis (pipeline idx batch)).map
            (fun e => e.marketShare.getD 0)).sum - 100|
          ≤ ((generate_company_analysis (pipeline idx batch)).length : ℚ) / 200)
    ∧ (summaryTotal (pipeline idx batch) = 0 →
        ∀ e ∈ generate_company_analysis (pipeline idx batch),
          e.marketShare = none) := by
  constructor
  · intro hT
    constructor
    · intro e he
      obtain ⟨c, rfl⟩ := summary_mem (pipeline idx batch) e he
      simp [addShare, pandasDiv, hT]
    · rw [summary_sum_list (pipeline idx batch) (fun e => e.marketShare.getD 0),
        summary_length (pipeline idx batch)]
      have hterm : ∀ c, ((addShare (summaryTotal (pipeline idx batch))
            (companyAgg (pipeline idx batch) c)).marketShare).getD 0
          = round2 (round2 (groupRevenue (pipeline idx batch) c)
              / summaryTotal (pipeline idx batch) * 100) := by
        intro c
        simp [addShare, pandasDiv, hT, companyAgg_totalRevenue]
      simp only [hterm]
      have hys : ((((pipeline idx batch).map (fun r => r.company)).dedup).map
          (fun c => round2 (groupRevenue (pipeline idx batch) c)
              / summaryTotal (pipeline idx batch) * 100)).sum = 100 := by
        have hmap : (((pipeline idx batch).map (fun r => r.company)).dedup).map
            (fun c => round2 (groupRevenue (pipeline idx batch) c)
                / summaryTotal (pipeline idx batch) * 100)
            = (((pipeline idx batch).map (fun r => r.company)).dedup).map
              (fun c => round2 (groupRevenue (pipeline idx batch) c)
                  * (100 / summaryTotal (pipeline idx batch))) := by
          refine List.map_congr_left (fun c _ => ?_)
          ring
        rw [hmap, List.sum_map_mul_right, ← summaryTotal_eq (pipeline idx batch)]
        field_simp
      have habs := abs_sum_round2_sub
        ((((pipeline idx batch).map (fun r => r.company)).dedup).map
          (fun c => round2 (groupRevenue (pipeline idx batch) c)
              / summaryTotal (pipeline idx batch) * 100))
      rw [List.map_map, List.length_map, hys] at habs
      simpa [Function.comp_def] using habs
  · intro hT e he
    obtain ⟨c, rfl⟩ := summary_mem (pipeline idx batch) e he
    simp [addShare, pandasDiv, hT]

/-- Witness for C4: on the single-row "Agas 250gms" batch the summary
grand total is 600, so the market shares sum to 100 within the rounding
bound. -/
theorem C4_market_share_witness :
    |((generate_company_analysis (pipeline
        (productToCompany [("Adama", ["Agas 250gms"])])
        [{ itname := "Agas 250gms", qty := 1, taxbleamt := 600, gst := 18 }])).map
        (fun e => e.marketShare.getD 0)).sum - 100|
      ≤ ((generate_company_analysis (pipeline
          (productToCompany [("Adama", ["Agas 250gms"])])
          [{ itname := "Agas 250gms", qty := 1, taxbleamt := 600,
             gst := 18 }])).length : ℚ) / 200 := by
  have hidx : productToCompany [("Adama", ["Agas 250gms"])] "Agas 250gms"
      = some "Adama" := by decide
  have h600 : round2 (600:ℚ) = 600 := by
    have h := round2_intCast 600
    push_cast at h
    exact h
  have hT : summaryTotal (pipeline
      (productToCompany [("Adama", ["Agas 250gms"])])
      [{ itname := "Agas 250gms", qty := 1, taxbleamt := 600, gst := 18 }])
      = 600 := by
    simp [summaryTotal, summaryCompanies, pipeline, categorize_by_company,
      calculate_advanced_metrics, hidx, companyAgg, groupRevenue,
      List.insertionSort, List.orderedInsert, h600]
  exact ((C4_market_share (productToCompany [("Adama", ["Agas 250gms"])])
    [{ itname := "Agas 250gms", qty := 1, taxbleamt := 600, gst := 18 }]).1
    (by rw [hT]; norm_num)).2

end STAnalysis
